import Mathlib

/-!
Shallow embedding of the plugin-market acquisition/installation pipeline
(`main.py` of astrbot_plugin_market).

The embedded functions mirror, statement for statement, the Python methods
`fetch_plugin_data`, `_test_proxy_latency`, `_get_fastest_proxies`,
`get_git_repo`, `manage_plugin` and `load_plugin`.  Network behaviour is an
explicit oracle (a function from the request made to the observed response);
the filesystem state touched by the installer (`target_path`, `backup_path`)
is threaded explicitly.  All definitions are executable.
-/

namespace PluginMarket

/-- Python `s.rstrip("/")`: drop every trailing slash character. -/
def rstripSlash (s : String) : String :=
  String.mk ((s.data.reverse.dropWhile (fun c => c == '/')).reverse)

/-- Python `s.split("/")` on the character list: the separator splits the
list into (possibly empty) fragments, and the empty string yields one empty
fragment. -/
def splitSlashChars : List Char → List (List Char)
  | [] => [[]]
  | c :: cs =>
    if c = '/' then [] :: splitSlashChars cs
    else
      match splitSlashChars cs with
      | [] => [[c]]
      | w :: ws => (c :: w) :: ws

/-- Python `s.split("/")`. -/
def splitSlash (s : String) : List String :=
  (splitSlashChars s.data).map String.mk

/-- Python `s.startswith(pre)`. -/
def strStartsWith (s t : String) : Bool := t.data.isPrefixOf s.data

/-- Python `s.endswith(t)`. -/
def strEndsWith (s t : String) : Bool := t.data.isSuffixOf s.data

/-- Python `s[n:]` (drop the first `n` characters). -/
def strDrop (s : String) (n : Nat) : String := String.mk (s.data.drop n)

/-- Python `s[:-n]` (drop the last `n` characters). -/
def strDropRight (s : String) (n : Nat) : String :=
  String.mk ((s.data.reverse.drop n).reverse)

/-- Python `len(s)`. -/
def strLen (s : String) : Nat := s.data.length

/-- Python `s.replace(pat, rep)` for a non-empty pattern: every
non-overlapping occurrence is replaced, scanning left to right.  The fuel
argument (instantiated with the length of the scanned list) makes the
recursion structural. -/
def replaceAllAux (pat rep : List Char) : Nat → List Char → List Char
  | 0, l => l
  | _ + 1, [] => []
  | fuel + 1, c :: cs =>
    if pat.isPrefixOf (c :: cs) then
      rep ++ replaceAllAux pat rep fuel ((c :: cs).drop pat.length)
    else c :: replaceAllAux pat rep fuel cs

/-- Python `s.replace(pat, rep)`. -/
def strReplace (s pat rep : String) : String :=
  String.mk (replaceAllAux pat.data rep.data s.data.length s.data)

/-- Strip a leading `http://` or `https://` scheme, as required by the
anchored pattern `^https?://`. -/
def stripScheme (url : String) : Option String :=
  if strStartsWith url "https://" then some (strDrop url 8)
  else if strStartsWith url "http://" then some (strDrop url 7)
  else none

/-- Model of `GITHUB_REPO_REGEX.match(url)` combined with the later
`match.group(2).replace(".git", "")`: the pattern is
`^https?://github\.com/([^/]+)/([^/]+?)(\.git)?$`, so a match requires the
host `github.com` followed by exactly two non-empty slash-free segments; the
lazy second group yields the tail minus a final `.git` when one can be split
off, and Python `replace` then removes every remaining `.git` occurrence. -/
def parseRepoUrl (url : String) : Option (String × String) :=
  match stripScheme url with
  | none => none
  | some rest =>
    if strStartsWith rest "github.com/" then
      match splitSlash (strDrop rest 11) with
      | [author, tail] =>
        if author = "" ∨ tail = "" then none
        else
          let g2 := if strEndsWith tail ".git" ∧ strLen tail > 4
                    then strDropRight tail 4 else tail
          some (author, strReplace g2 ".git" "")
      | _ => none
    else none

/-- Outcome of the `releases/latest` API call in `get_git_repo`:
status 200 with the optional `zipball_url` field of the JSON body,
a non-200 status, or a raised exception / timeout. -/
inductive ReleaseResp where
  | ok (zipball : Option String)
  | failStatus
  | exn
  deriving DecidableEq

/-- The deterministic default-branch archive URL
`https://github.com/{author}/{repo}/archive/HEAD.zip`. -/
def defaultBranchUrl (author repo : String) : String :=
  "https://github.com/" ++ author ++ "/" ++ repo ++ "/archive/HEAD.zip"

/-- Value of `base_download_url` after the release-lookup block: the
`zipball_url` when the call returned 200 and the field is present, otherwise
the empty string. -/
def releaseBase (r : ReleaseResp) : String :=
  match r with
  | .ok (some u) => u
  | _ => ""

/-- The `if not base_download_url` fallback: keep a non-empty release URL,
otherwise use the default-branch archive URL. -/
def resolveBaseUrl (author repo : String) (r : ReleaseResp) : String :=
  if releaseBase r = "" then defaultBranchUrl author repo else releaseBase r

/-- Stable probe target `PROXY_TEST_URL`. -/
def PROXY_TEST_URL : String := "https://api.github.com"

/-- URL probed by `_test_proxy_latency` for a given proxy. -/
def proxyTestUrl (proxy : String) : String :=
  rstripSlash proxy ++ "/" ++ PROXY_TEST_URL

/-- Model of `_test_proxy_latency`: the probe oracle maps the probed URL to
`some latency` on success and `none` on any failure or timeout (the Python
code records `float("inf")` there). -/
def testProxyLatency (probe : String → Option Nat) (proxy : String) :
    String × Option Nat :=
  (proxy, probe (proxyTestUrl proxy))

/-- Comparison used by `sorted(..., key=lambda x: x[1])` on the surviving
(finite-latency) results. -/
def latencyLE (a b : String × Option Nat) : Bool :=
  (a.2.getD 0) ≤ (b.2.getD 0)

/-- Model of `_get_fastest_proxies`, keeping the latency of each surviving
proxy: `asyncio.gather` preserves the order of the configured list, failed
probes are filtered out (`res[1] != float("inf")`), and the rest are sorted
ascending by latency with a stable sort. -/
def getFastestProxiesRanked (probe : String → Option Nat)
    (configured : List String) : List (String × Option Nat) :=
  if configured = [] then []
  else
    let results := configured.map (testProxyLatency probe)
    (results.filter (fun r => r.2.isSome)).mergeSort latencyLE

/-- Return value of `_get_fastest_proxies`: the ranked proxies only. -/
def getFastestProxies (probe : String → Option Nat)
    (configured : List String) : List String :=
  (getFastestProxiesRanked probe configured).map (fun p => p.1)

/-- The download URL built for one attempt: `f"{prefix.rstrip('/')}/{base}"`
for a proxy entry, the bare base URL for the final direct entry. -/
def candidateUrl (base : String) (pre : String) : String :=
  if pre = "" then base else rstripSlash pre ++ "/" ++ base

/-- The ordered sequence of URLs the download loop tries:
`attempt_prefixes = fastest_proxies + [""]`, each mapped to its URL. -/
def downloadPlan (fastest : List String) (base : String) : List String :=
  (fastest ++ [""]).map (candidateUrl base)

/-- The download loop of `get_git_repo`: try each candidate URL in order, stop
at the first success (the oracle yields the archive's entry-name list), return
`none` when every candidate failed. -/
def tryDownload (dl : String → Option (List String)) :
    List String → Option (List String)
  | [] => none
  | u :: rest =>
    match dl u with
    | some ns => some ns
    | none => tryDownload dl rest

/-- Instrumented variant of the download loop that also records which URLs
were actually requested, in order. -/
def tryDownloadTrace (dl : String → Option (List String)) :
    List String → Option (List String) × List String
  | [] => (none, [])
  | u :: rest =>
    match dl u with
    | some ns => (some ns, [u])
    | none =>
      let r := tryDownloadTrace dl rest
      (r.1, u :: r.2)

/-- The network oracle for one `get_git_repo` call: the release-lookup
response, the latency observed per probed URL, and the response per download
URL (`none` abstracts any non-success status or transport error, `some ns`
a full success whose ZIP archive has entry-name list `ns`). -/
structure NetOracle where
  release : ReleaseResp
  probe : String → Option Nat
  download : String → Option (List String)

/-- Contents of an installed plugin directory, as far as the pipeline
distinguishes them: the archive entry list it was produced from and the root
directory name that was moved into place.  Pre-existing installations are
arbitrary values of this type; equality of values models byte-for-byte
equality of directory trees. -/
structure Content where
  entries : List String
  root : String
  deriving DecidableEq

/-- Computation `root_dir_name = z.namelist()[0].split("/")[0]` (only
evaluated on a non-empty name list). -/
def rootDirName (ns : List String) : String :=
  match ns with
  | [] => ""
  | n :: _ => (splitSlash n).headD ""

/-- After `z.extractall(temp_dir)`, the path `temp_dir / root` is a directory
exactly when some entry has `root` as its first path segment followed by at
least one further segment (a lone file entry named `root` yields a file). -/
def entryUnderRoot (root : String) (e : String) : Bool :=
  match splitSlash e with
  | r :: _ :: _ => r = root
  | _ => false

/-- The distinct failure classes `get_git_repo` can raise. -/
inductive GitErr where
  /-- Raised `ValueError("无效的GitHub仓库URL")` on a failed regex match. -/
  | invalidUrl
  /-- Raised `RuntimeError` after every proxy and the direct attempt failed. -/
  | downloadFailed
  /-- Raised `RuntimeError("下载的压缩包为空。")` on an empty name list. -/
  | emptyArchive
  /-- Raised `RuntimeError` when `temp_dir / root_dir_name` is not a directory. -/
  | rootNotDir
  deriving DecidableEq

/-- Model of `get_git_repo` up to the move into `target_path`: parse the URL,
resolve the base archive URL, rank the proxies, build the candidate list, run
the download loop, validate the archive and identify its root.  On success it
returns the content that the final `shutil.move` places at `target_path`. -/
def getGitRepo (o : NetOracle) (proxies : List String) (url : String) :
    Except GitErr Content :=
  match parseRepoUrl url with
  | none => .error .invalidUrl
  | some (author, repo) =>
    let base := resolveBaseUrl author repo o.release
    let fastest := getFastestProxies o.probe proxies
    match tryDownload o.download (downloadPlan fastest base) with
    | none => .error .downloadFailed
    | some ns =>
      if ns = [] then .error .emptyArchive
      else
        let root := rootDirName ns
        if ns.any (entryUnderRoot root) then
          .ok { entries := ns, root := root }
        else .error .rootNotDir

/-- The method `get_git_repo` as a transformer of the `target_path` state: the only
statements of the method that touch `target_path` are the
`shutil.rmtree(target_path)` / `shutil.move(...)` pair in its success branch,
so on any raised error the state is the input state. -/
def getGitRepoFS (o : NetOracle) (proxies : List String) (url : String)
    (target : Option Content) : Except GitErr Unit × Option Content :=
  match getGitRepo o proxies url with
  | .ok c => (.ok (), some c)
  | .error e => (.error e, target)

/-- The `plugins_dir` state seen by `manage_plugin`: contents of
`target_path` and of `backup_path` (`none` = the path does not exist). -/
structure FSState where
  target : Option Content
  backup : Option Content
  deriving DecidableEq

/-- The failure classes `manage_plugin` can raise. -/
inductive ManageErr where
  /-- Raised `ValueError(f"插件 ... 未安装，无法更新。")`. -/
  | notInstalled
  /-- Raised `RuntimeError(f"下载插件 ... 时出错: ...")` wrapping the cause. -/
  | downloadError (e : GitErr)
  deriving DecidableEq

/-- Model of `manage_plugin`: the update precondition and backup copy, the
`get_git_repo` call, and the `except` handler that restores the backup on an
update and removes `target_path` on a failed fresh install. -/
def managePlugin (o : NetOracle) (proxies : List String) (repoUrl : String)
    (isUpdate : Bool) (st : FSState) : Except ManageErr Unit × FSState :=
  if isUpdate then
    match st.target with
    | none => (.error .notInstalled, st)
    | some cur =>
      let st1 : FSState := { target := some cur, backup := some cur }
      match getGitRepo o proxies repoUrl with
      | .ok c => (.ok (), { st1 with target := some c })
      | .error e =>
        (.error (.downloadError e), { target := st1.backup, backup := none })
  else
    match getGitRepo o proxies repoUrl with
    | .ok c => (.ok (), { st with target := some c })
    | .error e => (.error (.downloadError e), { st with target := none })

/-- The two host-runtime activation entry points that `load_plugin` calls. -/
structure HostRuntime where
  load : String → Except String Unit
  reload : String → Except String Unit

/-- Model of `load_plugin`: the result together with how many times each
entry point was invoked. -/
def loadPlugin (h : HostRuntime) (name : String) :
    Except String Unit × Nat × Nat :=
  match h.load name with
  | .ok _ => (.ok (), 1, 0)
  | .error e =>
    match h.reload name with
    | .ok _ => (.ok (), 1, 1)
    | .error re =>
      (.error ("加载插件失败: " ++ e ++ ", 重载也失败: " ++ re), 1, 1)

/-- One catalog entry's value, as far as `fetch_plugin_data` inspects it:
whether the JSON object carries a `"repo"` key. -/
structure PluginVal where
  hasRepo : Bool
  deriving DecidableEq

/-- The in-memory catalog `self.plugins_data`. -/
def Catalog := List (String × PluginVal)

/-- Response of one catalog API endpoint. -/
inductive ApiResp where
  | success (data : List (String × PluginVal))
  | badStatus
  | exn

/-- The two configured catalog endpoints `PLUGIN_API_URLS`. -/
def PLUGIN_API_URLS : List String :=
  ["https://api.soulter.top/astrbot/plugins", "https://plugin.astrbot.uk"]

/-- The retry loop of `fetch_plugin_data` over the endpoint list: the first
status-200 response wins and is filtered to the entries carrying a `"repo"`
key; `none` means every endpoint failed. -/
def fetchPluginDataLoop (resp : String → ApiResp) :
    List String → Option Catalog
  | [] => none
  | u :: rest =>
    match resp u with
    | .success d => some (d.filter (fun kv => kv.2.hasRepo))
    | _ => fetchPluginDataLoop resp rest

/-- Model of `fetch_plugin_data`: on success `self.plugins_data` becomes the
filtered payload, and when every endpoint fails it is assigned `{}`. -/
def fetchPluginData (resp : String → ApiResp) (prior : Catalog) : Catalog :=
  match fetchPluginDataLoop resp PLUGIN_API_URLS with
  | some c => c
  | none => []

/-!
Helper lemmas shared by the claim theorems.
-/

/-- Every proxy surviving `_get_fastest_proxies` carries exactly the latency
its probe measured. -/
theorem mem_ranked_snd {probe : String → Option Nat} {configured : List String}
    {x : String × Option Nat}
    (hx : x ∈ getFastestProxiesRanked probe configured) :
    x.2 = probe (proxyTestUrl x.1) := by
  unfold getFastestProxiesRanked at hx
  split at hx
  · cases hx
  · rw [List.mem_mergeSort] at hx
    have hmem := (List.mem_filter.mp hx).1
    obtain ⟨p, _, hp⟩ := List.mem_map.mp hmem
    rw [← hp]
    rfl

/-- Every proxy surviving `_get_fastest_proxies` had a successful probe. -/
theorem mem_ranked_isSome {probe : String → Option Nat}
    {configured : List String} {x : String × Option Nat}
    (hx : x ∈ getFastestProxiesRanked probe configured) :
    x.2.isSome := by
  unfold getFastestProxiesRanked at hx
  split at hx
  · cases hx
  · rw [List.mem_mergeSort] at hx
    exact (List.mem_filter.mp hx).2

/-- The ranked list produced by `_get_fastest_proxies` is pairwise ordered by
the latency comparison. -/
theorem ranked_pairwise (probe : String → Option Nat)
    (configured : List String) :
    List.Pairwise (fun a b => latencyLE a b = true)
      (getFastestProxiesRanked probe configured) := by
  unfold getFastestProxiesRanked
  split
  · exact List.Pairwise.nil
  · refine List.sorted_mergeSort ?_ ?_ _
    · intro a b c hab hbc
      simp only [latencyLE, decide_eq_true_eq] at *
      omega
    · intro a b
      simp only [latencyLE]
      rcases Nat.le_total (a.2.getD 0) (b.2.getD 0) with h | h <;> simp [h]

/-!
Claim theorems.
-/

/-- C5: For every configured list of mirror prefixes and probe results, the
output of `_get_fastest_proxies` contains no prefix whose probe failed or
timed out (failed probes, recorded as infinite latency, are excluded) and is
sorted ascending by measured latency. -/
theorem C5_mirror_racer_sorted_and_reachable
    (probe : String → Option Nat) (configured : List String) :
    (∀ p ∈ getFastestProxies probe configured,
        (probe (proxyTestUrl p)).isSome) ∧
    List.Sorted (· ≤ ·)
      ((getFastestProxies probe configured).map
        (fun p => (probe (proxyTestUrl p)).getD 0)) := by
  constructor
  · intro p hp
    obtain ⟨x, hx, hxp⟩ := List.mem_map.mp hp
    have h1 := mem_ranked_snd hx
    have h2 := mem_ranked_isSome hx
    rw [hxp] at h1
    rw [← h1]
    exact h2
  · unfold getFastestProxies
    rw [List.map_map, List.Sorted, List.pairwise_map]
    refine (ranked_pairwise probe configured).imp_of_mem ?_
    intro a b ha hb hab
    have ha2 := mem_ranked_snd ha
    have hb2 := mem_ranked_snd hb
    simp only [latencyLE, decide_eq_true_eq] at hab
    simp only [Function.comp]
    rw [← ha2, ← hb2]
    exact hab

/-- C6: For every install attempt, the ordered candidate list built from
`attempt_prefixes = fastest_proxies + [""]` is non-empty and its last
candidate is the direct, non-mirrored base URL, even when the proxy list is
empty. -/
theorem C6_download_plan_nonempty_direct_last
    (fastest : List String) (base : String) :
    downloadPlan fastest base ≠ [] ∧
    (downloadPlan fastest base).getLast? = some base := by
  constructor
  · simp [downloadPlan]
  · unfold downloadPlan
    rw [List.map_append]
    have : List.map (candidateUrl base) [""] = [base] := by
      simp [candidateUrl]
    rw [this, List.getLast?_concat]

/-- Unfolding of `get_git_repo` once the URL has been parsed. -/
theorem getGitRepo_parse_some (o : NetOracle) (proxies : List String)
    (url author repo : String) (h : parseRepoUrl url = some (author, repo)) :
    getGitRepo o proxies url =
      (match tryDownload o.download
          (downloadPlan (getFastestProxies o.probe proxies)
            (resolveBaseUrl author repo o.release)) with
       | none => .error .downloadFailed
       | some ns =>
         if ns = [] then .error .emptyArchive
         else
           if ns.any (entryUnderRoot (rootDirName ns)) then
             .ok { entries := ns, root := rootDirName ns }
           else .error .rootNotDir) := by
  unfold getGitRepo
  rw [h]

/-- Unfolding of `get_git_repo` on a URL the regex rejects. -/
theorem getGitRepo_parse_none (o : NetOracle) (proxies : List String)
    (url : String) (h : parseRepoUrl url = none) :
    getGitRepo o proxies url = .error .invalidUrl := by
  unfold getGitRepo
  rw [h]

/-- C7: For every repository reference of recognizable form the resolver
never raises: a successful release lookup carrying a downloadable-archive URL
is chosen, every non-success response, timeout or missing field falls back to
the deterministic default-branch archive URL, and the pipeline fails with the
invalid-URL error only on a malformed reference, independently of all network
behaviour (hence before any network I/O). -/
theorem C7_resolver_total_and_fallback :
    (∀ (o : NetOracle) (proxies : List String) (url author repo : String),
        parseRepoUrl url = some (author, repo) →
        getGitRepo o proxies url ≠ .error .invalidUrl) ∧
    (∀ (author repo u : String), u ≠ "" →
        resolveBaseUrl author repo (.ok (some u)) = u) ∧
    (∀ (author repo : String) (r : ReleaseResp),
        r = .failStatus ∨ r = .exn ∨ r = .ok none →
        resolveBaseUrl author repo r = defaultBranchUrl author repo) ∧
    (∀ (o o' : NetOracle) (proxies proxies' : List String) (url : String),
        parseRepoUrl url = none →
        getGitRepo o proxies url = .error .invalidUrl ∧
        getGitRepo o proxies url = getGitRepo o' proxies' url) := by
  refine ⟨?_, ?_, ?_, ?_⟩
  · intro o proxies url author repo h
    rw [getGitRepo_parse_some o proxies url author repo h]
    cases tryDownload o.download
        (downloadPlan (getFastestProxies o.probe proxies)
          (resolveBaseUrl author repo o.release)) with
    | none => simp
    | some ns =>
      dsimp only
      split
      · simp
      · split <;> simp
  · intro author repo u hu
    simp [resolveBaseUrl, releaseBase, hu]
  · intro author repo r hr
    rcases hr with h | h | h <;> subst h <;> rfl
  · intro o o' proxies proxies' url h
    rw [getGitRepo_parse_none o proxies url h,
        getGitRepo_parse_none o' proxies' url h]
    exact ⟨rfl, rfl⟩

/-- Witness for C7 at concrete inputs: the well-formed reference
`https://github.com/u/r` with a dead network, a concrete release payload, the
three fallback-triggering responses, and the malformed reference `"nope"`. -/
theorem C7_witness :
    getGitRepo ⟨.exn, fun _ => none, fun _ => none⟩ []
        "https://github.com/u/r" ≠ .error .invalidUrl ∧
    resolveBaseUrl "u" "r" (.ok (some "Z")) = "Z" ∧
    resolveBaseUrl "u" "r" .exn = defaultBranchUrl "u" "r" ∧
    getGitRepo ⟨.exn, fun _ => none, fun _ => none⟩ [] "nope" =
      .error .invalidUrl := by
  refine ⟨?_, ?_, ?_, ?_⟩
  · exact C7_resolver_total_and_fallback.1 _ [] _ "u" "r" rfl
  · exact C7_resolver_total_and_fallback.2.1 "u" "r" "Z" (by decide)
  · exact C7_resolver_total_and_fallback.2.2.1 "u" "r" .exn (Or.inr (Or.inl rfl))
  · exact (C7_resolver_total_and_fallback.2.2.2
      ⟨.exn, fun _ => none, fun _ => none⟩ ⟨.exn, fun _ => none, fun _ => none⟩
      [] [] "nope" rfl).1

/-- C8: For every update request (`is_update=true`) whose `target_path` does
not exist, `manage_plugin` fails immediately with the not-installed error and
returns the directory state untouched — no backup is taken, nothing is
mutated, and the result does not depend on any network response. -/
theorem C8_update_missing_target_fails_immediately
    (o : NetOracle) (proxies : List String) (url : String) (st : FSState)
    (h : st.target = none) :
    managePlugin o proxies url true st = (.error .notInstalled, st) := by
  unfold managePlugin
  rw [h]
  rfl

/-- Witness for C8: a concrete dead-network oracle and an empty plugins
directory. -/
theorem C8_witness :
    managePlugin ⟨.exn, fun _ => none, fun _ => none⟩ []
        "https://github.com/u/r" true { target := none, backup := none } =
      (.error .notInstalled, { target := none, backup := none }) :=
  C8_update_missing_target_fails_immediately
    ⟨.exn, fun _ => none, fun _ => none⟩ [] "https://github.com/u/r"
    { target := none, backup := none } rfl

/-- C9: For every activation request, if the load-by-directory-name call
fails, exactly one reload-by-registered-name call with the same name is
attempted, and if both fail the reported error embeds both underlying failure
messages; no further automatic retries occur (each entry point is invoked at
most once). -/
theorem C9_activation_fallback (h : HostRuntime) (name e : String)
    (hl : h.load name = .error e) :
    (loadPlugin h name).2.1 = 1 ∧ (loadPlugin h name).2.2 = 1 ∧
    (∀ re, h.reload name = .error re →
      loadPlugin h name =
        (.error ("加载插件失败: " ++ e ++ ", 重载也失败: " ++ re), 1, 1) ∧
      ∃ pr mid, (loadPlugin h name).1 = .error (pr ++ e ++ mid ++ re)) := by
  unfold loadPlugin
  rw [hl]
  refine ⟨?_, ?_, ?_⟩
  · cases hre : h.reload name <;> simp [hre]
  · cases hre : h.reload name <;> simp [hre]
  · intro re hre
    rw [hre]
    exact ⟨rfl, "加载插件失败: ", ", 重载也失败: ", rfl⟩

/-- Witness for C9: a concrete runtime whose load and reload both fail. -/
theorem C9_witness :
    (loadPlugin ⟨fun _ => .error "E1", fun _ => .error "E2"⟩ "p").2.1 = 1 ∧
    (loadPlugin ⟨fun _ => .error "E1", fun _ => .error "E2"⟩ "p").2.2 = 1 ∧
    loadPlugin ⟨fun _ => .error "E1", fun _ => .error "E2"⟩ "p" =
      (.error ("加载插件失败: " ++ "E1" ++ ", 重载也失败: " ++ "E2"), 1, 1) := by
  have h := C9_activation_fallback
    ⟨fun _ => .error "E1", fun _ => .error "E2"⟩ "p" "E1" rfl
  exact ⟨h.1, h.2.1, (h.2.2 "E2" rfl).1⟩

/-- The endpoint retry loop yields nothing when every endpoint fails. -/
theorem fetchPluginDataLoop_all_fail (resp : String → ApiResp)
    (us : List String) (h : ∀ u ∈ us, ∀ d, resp u ≠ .success d) :
    fetchPluginDataLoop resp us = none := by
  induction us with
  | nil => rfl
  | cons u rest ih =>
    unfold fetchPluginDataLoop
    cases hr : resp u with
    | success d => exact absurd hr (h u (List.mem_cons_self u rest) d)
    | badStatus => exact ih (fun v hv d => h v (List.mem_cons_of_mem u hv) d)
    | exn => exact ih (fun v hv d => h v (List.mem_cons_of_mem u hv) d)

/-- C10: For every catalog refresh in which all configured API endpoints
fail, `fetch_plugin_data` resets the in-memory catalog to empty, discarding
any previously fetched catalog data rather than keeping the prior
snapshot. -/
theorem C10_all_endpoints_fail_resets_catalog
    (resp : String → ApiResp) (prior : Catalog)
    (h : ∀ u ∈ PLUGIN_API_URLS, ∀ d, resp u ≠ .success d) :
    fetchPluginData resp prior = [] := by
  unfold fetchPluginData
  rw [fetchPluginDataLoop_all_fail resp PLUGIN_API_URLS h]

/-- Witness for C10: both endpoints raise, and the non-empty prior snapshot
is discarded. -/
theorem C10_witness :
    fetchPluginData (fun _ => .exn) [("k", ⟨true⟩)] = [] :=
  C10_all_endpoints_fail_resets_catalog (fun _ => .exn) [("k", ⟨true⟩)]
    (fun _ _ d h => ApiResp.noConfusion h)

/-- Root entry as the specification words it: the first path segment shared
by all archive entries, or `none` when the entries do not share one.  This
definition follows the spec text and exists only to be compared with the
source's `rootDirName`. -/
def specSharedRoot (ns : List String) : Option String :=
  match ns with
  | [] => none
  | n :: rest =>
    let r := (splitSlash n).headD ""
    if rest.all (fun e => (splitSlash e).headD "" = r) then some r else none

/-- C1 fails on the code: a fresh install (`is_update=false`) over a
pre-existing `target_path` whose download fails ends with the `except`
handler of `manage_plugin` removing `target_path`, so the previously working
installation is destroyed by the failing run. -/
theorem C1_counterexample :
    managePlugin ⟨.exn, fun _ => none, fun _ => none⟩ []
        "https://github.com/u/r" false
        { target := some { entries := ["old/x"], root := "old" },
          backup := none } =
      (.error (.downloadError .downloadFailed),
       { target := none, backup := none }) := rfl

/-- C1 amended: every failing fresh install leaves `target_path` absent —
never half-extracted — but a pre-existing installation there is deleted by
the failure handler, not preserved; `backup_path` is untouched. -/
theorem C1_fresh_install_failure_removes_target
    (o : NetOracle) (proxies : List String) (url : String) (st st' : FSState)
    (err : ManageErr)
    (hrun : managePlugin o proxies url false st = (.error err, st')) :
    st'.target = none ∧ st'.backup = st.backup := by
  unfold managePlugin at hrun
  cases hgit : getGitRepo o proxies url with
  | ok c =>
    rw [hgit] at hrun
    simp at hrun
  | error e =>
    rw [hgit] at hrun
    simp only [Bool.false_eq_true, if_false] at hrun
    have h2 := congrArg Prod.snd hrun
    simp only at h2
    rw [← h2]
    exact ⟨rfl, rfl⟩

/-- Witness for the amended C1 at the concrete failing fresh install of the
counterexample scenario. -/
theorem C1_witness :
    ({ target := none, backup := none } : FSState).target = none ∧
    ({ target := none, backup := none } : FSState).backup =
      ({ target := some { entries := ["old/x"], root := "old" },
         backup := none } : FSState).backup :=
  C1_fresh_install_failure_removes_target
    ⟨.exn, fun _ => none, fun _ => none⟩ [] "https://github.com/u/r"
    { target := some { entries := ["old/x"], root := "old" }, backup := none }
    { target := none, backup := none } (.downloadError .downloadFailed) rfl

/-- C2 fails on the code: with the release lookup returning not-found the
resolved URL is the `HEAD.zip` archive URL (not a branch-name guess such as
`master`), and when its download returns not-found no candidate is rewritten
to `main` and retried — the run fails even though a `main.zip` archive is
available, and the only URL ever requested is the `HEAD.zip` one. -/
theorem C2_counterexample :
    resolveBaseUrl "u" "r" .failStatus =
      "https://github.com/u/r/archive/HEAD.zip" ∧
    getGitRepo
        ⟨.failStatus, fun _ => none,
         fun u => if u = "https://github.com/u/r/archive/main.zip"
                  then some ["r-main/f"] else none⟩ []
        "https://github.com/u/r" = .error .downloadFailed ∧
    (tryDownloadTrace
        (fun u => if u = "https://github.com/u/r/archive/main.zip"
                  then some ["r-main/f"] else none)
        (downloadPlan [] (resolveBaseUrl "u" "r" .failStatus))).2 =
      ["https://github.com/u/r/archive/HEAD.zip"] :=
  ⟨rfl, rfl, rfl⟩

/-- C2 amended: the default-branch fallback URL is the `archive/HEAD.zip`
URL, which the hosting service resolves to the default branch whatever its
name, and the download loop performs no branch-segment rewrite on a
not-found response: every URL it requests is a candidate of the plan, each
candidate is requested at most once, and the result is that of plain
first-success iteration. -/
theorem C2_no_branch_rewrite (author repo : String) (r : ReleaseResp)
    (hr : releaseBase r = "") (dl : String → Option (List String))
    (plan : List String) :
    resolveBaseUrl author repo r = defaultBranchUrl author repo ∧
    (tryDownloadTrace dl plan).2.Sublist plan ∧
    (tryDownloadTrace dl plan).1 = tryDownload dl plan := by
  refine ⟨by simp [resolveBaseUrl, hr], ?_, ?_⟩
  · induction plan with
    | nil => exact List.Sublist.refl []
    | cons u rest ih =>
      unfold tryDownloadTrace
      cases dl u with
      | some ns => simp [List.nil_sublist]
      | none => simpa using ih
  · induction plan with
    | nil => rfl
    | cons u rest ih =>
      unfold tryDownloadTrace tryDownload
      cases dl u with
      | some ns => rfl
      | none => simpa using ih

/-- Witness for the amended C2: a not-found release lookup and a plan holding
only the direct default-branch URL, with every download failing. -/
theorem C2_witness :
    resolveBaseUrl "u" "r" .failStatus = defaultBranchUrl "u" "r" ∧
    (tryDownloadTrace (fun _ => none)
        [defaultBranchUrl "u" "r"]).2.Sublist [defaultBranchUrl "u" "r"] ∧
    (tryDownloadTrace (fun _ => none) [defaultBranchUrl "u" "r"]).1 =
      tryDownload (fun _ => none) [defaultBranchUrl "u" "r"] :=
  C2_no_branch_rewrite "u" "r" .failStatus rfl (fun _ => none)
    [defaultBranchUrl "u" "r"]

/-- C3 fails on the code: the archive `["a/x", "b/y"]` has no path segment
shared by all entries, so the claim requires an extract-stage failure without
mutation, yet `get_git_repo` takes the first entry's first segment `"a"`,
succeeds, and replaces `target_path` with that subtree. -/
theorem C3_counterexample :
    specSharedRoot ["a/x", "b/y"] = none ∧
    getGitRepoFS
        ⟨.exn, fun _ => none,
         fun u => if u = defaultBranchUrl "u" "r"
                  then some ["a/x", "b/y"] else none⟩ []
        "https://github.com/u/r" none =
      (.ok (), some { entries := ["a/x", "b/y"], root := "a" }) :=
  ⟨rfl, rfl⟩

/-- C3 amended: the root entry used for installation is the first path
segment of the archive's first entry (not a segment shared by all entries);
when extraction yields no directory of that name the installer fails at the
extract stage with the root-not-found error and `target_path` is not
mutated. -/
theorem C3_root_is_first_entry_segment
    (o : NetOracle) (proxies : List String) (url author repo : String)
    (hp : parseRepoUrl url = some (author, repo)) (ns : List String)
    (hd : tryDownload o.download
        (downloadPlan (getFastestProxies o.probe proxies)
          (resolveBaseUrl author repo o.release)) = some ns)
    (hne : ns ≠ []) :
    rootDirName ns = (splitSlash (ns.headD "")).headD "" ∧
    (ns.any (entryUnderRoot (rootDirName ns)) = true →
      ∀ target, getGitRepoFS o proxies url target =
        (.ok (), some { entries := ns, root := rootDirName ns })) ∧
    (ns.any (entryUnderRoot (rootDirName ns)) = false →
      ∀ target, getGitRepoFS o proxies url target =
        (.error .rootNotDir, target)) := by
  have hrepo := getGitRepo_parse_some o proxies url author repo hp
  rw [hd] at hrepo
  simp only at hrepo
  rw [if_neg hne] at hrepo
  refine ⟨?_, ?_, ?_⟩
  · cases ns with
    | nil => exact absurd rfl hne
    | cons n rest => rfl
  · intro hany target
    rw [if_pos hany] at hrepo
    unfold getGitRepoFS
    rw [hrepo]
  · intro hany target
    rw [if_neg (by simp [hany])] at hrepo
    unfold getGitRepoFS
    rw [hrepo]

/-- Witness for the amended C3: an archive whose only entry is a top-level
file, so the expected root directory is missing; the installer reports the
extract-stage error and leaves the pre-existing `target_path` untouched. -/
theorem C3_witness :
    rootDirName ["f.txt"] = (splitSlash (["f.txt"].headD "")).headD "" ∧
    getGitRepoFS
        ⟨.exn, fun _ => none,
         fun u => if u = defaultBranchUrl "u" "r"
                  then some ["f.txt"] else none⟩ []
        "https://github.com/u/r"
        (some { entries := ["z/1"], root := "z" }) =
      (.error .rootNotDir, some { entries := ["z/1"], root := "z" }) := by
  have h := C3_root_is_first_entry_segment
    ⟨.exn, fun _ => none,
     fun u => if u = defaultBranchUrl "u" "r" then some ["f.txt"] else none⟩
    [] "https://github.com/u/r" "u" "r" rfl ["f.txt"] rfl (by simp)
  exact ⟨h.1, h.2.2 rfl (some { entries := ["z/1"], root := "z" })⟩

/-- C4: For every update (`is_update=true`) where the backup has been taken
and a later step raises, `manage_plugin` restores `target_path` to its
pre-update contents and leaves `backup_path` absent when it completes. -/
theorem C4_update_rollback
    (o : NetOracle) (proxies : List String) (url : String)
    (st st' : FSState) (c : Content) (err : ManageErr)
    (hc : st.target = some c)
    (hrun : managePlugin o proxies url true st = (.error err, st')) :
    st'.target = some c ∧ st'.backup = none := by
  unfold managePlugin at hrun
  rw [hc] at hrun
  cases hgit : getGitRepo o proxies url with
  | ok nc =>
    rw [hgit] at hrun
    simp at hrun
  | error e =>
    rw [hgit] at hrun
    simp only [if_pos] at hrun
    have h2 := congrArg Prod.snd hrun
    simp only at h2
    rw [← h2]
    exact ⟨rfl, rfl⟩

/-- Witness for C4: a concrete update whose download fails; the pre-update
contents are restored and the backup removed. -/
theorem C4_witness :
    ({ target := some { entries := ["old/x"], root := "old" },
       backup := none } : FSState).target =
      some { entries := ["old/x"], root := "old" } ∧
    ({ target := some { entries := ["old/x"], root := "old" },
       backup := none } : FSState).backup = none :=
  C4_update_rollback ⟨.exn, fun _ => none, fun _ => none⟩ []
    "https://github.com/u/r"
    { target := some { entries := ["old/x"], root := "old" },
      backup := some { entries := ["stale"], root := "s" } }
    { target := some { entries := ["old/x"], root := "old" }, backup := none }
    { entries := ["old/x"], root := "old" } (.downloadError .downloadFailed)
    rfl rfl

end PluginMarket
